import Mathlib

/-!
Verification development for the CSV filter/aggregate command-line utility
(`main.py`).  The definitions below are a shallow embedding of the source:
rows are association lists from column name to raw string cell, Python
`float` values are modelled as rationals, and fallible code returns
`Except`.  Python exceptions are modelled as explicit error constructors;
an error value that the source never catches corresponds to a fatal,
uncaught exception.
-/

/-! ## Host-language string primitives -/

/-- Python `str.strip()`: drop whitespace from both ends. -/
def pyStrip (s : String) : String :=
  ⟨((s.data.dropWhile Char.isWhitespace).reverse.dropWhile Char.isWhitespace).reverse⟩

/-- Python `c in s` for a one-character needle `c`. -/
def pyContains (s : String) (c : Char) : Bool :=
  s.data.any (fun d => d = c)

/-- Python `str.split(sep)` for a one-character separator, on char lists:
splits at every occurrence, keeping empty parts. -/
def splitC (sep : Char) : List Char → List (List Char)
  | [] => [[]]
  | c :: cs =>
    match splitC sep cs with
    | [] => [[]]
    | p :: ps => if c = sep then [] :: p :: ps else (c :: p) :: ps

/-- Python `s.split(sep)` for a one-character separator. -/
def pySplit (sep : Char) (s : String) : List String :=
  (splitC sep s.data).map (fun l => ⟨l⟩)

/-- Numeric value of a list of decimal digit characters. -/
def digitsVal (l : List Char) : Nat :=
  l.foldl (fun a c => a * 10 + (c.toNat - 48)) 0

/-- Modelled host primitive: Python `float(s)`, restricted to the decimal
forms the program exercises — optional surrounding whitespace, optional
sign, digits with an optional decimal point (at least one digit overall),
and an optional exponent part.  The special forms `inf`, `nan` and digit
underscores are not modelled.  Returns the exact rational value; `none`
models the `ValueError` that `float` raises on unparseable input. -/
def parseFloat? (s : String) : Option ℚ :=
  let l := (pyStrip s).data
  let sgn : Bool × List Char :=
    match l with
    | '-' :: r => (true, r)
    | '+' :: r => (false, r)
    | r => (false, r)
  let neg := sgn.1
  let l1 := sgn.2
  let d1 := l1.takeWhile Char.isDigit
  let r1 := l1.dropWhile Char.isDigit
  let mant : Option (ℚ × List Char) :=
    match r1 with
    | '.' :: r2 =>
      let d2 := r2.takeWhile Char.isDigit
      let r3 := r2.dropWhile Char.isDigit
      if d1.isEmpty && d2.isEmpty then none
      else some ((digitsVal d1 : ℚ) + (digitsVal d2 : ℚ) / ((10 : ℚ) ^ d2.length), r3)
    | _ => if d1.isEmpty then none else some ((digitsVal d1 : ℚ), r1)
  match mant with
  | none => none
  | some (m, r) =>
    let signed := if neg then -m else m
    match r with
    | [] => some signed
    | e :: r2 =>
      if e = 'e' || e = 'E' then
        let esgn : Bool × List Char :=
          match r2 with
          | '-' :: rr => (true, rr)
          | '+' :: rr => (false, rr)
          | rr => (false, rr)
        let ed := esgn.2.takeWhile Char.isDigit
        let r4 := esgn.2.dropWhile Char.isDigit
        if ed.isEmpty || !r4.isEmpty then none
        else if esgn.1 then some (signed / (10 : ℚ) ^ digitsVal ed)
        else some (signed * (10 : ℚ) ^ digitsVal ed)
      else none

/-- Embeds `try_float` (main.py lines 38-42): `float(value)` with the
`ValueError` converted to `None`. -/
def try_float (value : String) : Option ℚ :=
  parseFloat? value

/-- Python string less-than: lexicographic comparison by code point. -/
def clex : List Char → List Char → Bool
  | [], [] => false
  | [], _ :: _ => true
  | _ :: _, [] => false
  | c :: cs, d :: ds => if c < d then true else if d < c then false else clex cs ds

/-- Python `a < b` on strings. -/
def pyStrLt (a b : String) : Bool :=
  clex a.data b.data

/-! ## Data model -/

/-- A row: mapping from column name to raw string cell, in insertion
order (models a Python `dict` built by `csv.DictReader`). -/
abbrev Row := List (String × String)

/-- Python `row[column]`: `none` models the `KeyError` on a missing key. -/
def getCell (column : String) : Row → Option String
  | [] => none
  | (k, v) :: rest => if k = column then some v else getCell column rest

/-- Python `row.keys()` in insertion order. -/
def rowKeys (row : Row) : List String :=
  row.map Prod.fst

/-! ## filter_data (main.py lines 14-35) -/

/-- The three comparison operator tokens, in the priority order of the
`ops` dict of `filter_data`. -/
inductive Op
  | gt
  | lt
  | eq
  deriving DecidableEq, Repr

/-- The character token of an operator. -/
def Op.char : Op → Char
  | .gt => '>'
  | .lt => '<'
  | .eq => '='

/-- The one-character string token of an operator. -/
def Op.tok (op : Op) : String :=
  ⟨[op.char]⟩

/-- Errors of the embedded program; each constructor models one concrete
Python exception site. -/
inductive PyError
  /-- `ValueError("Invalid filter condition")`, main.py line 29. -/
  | invalidCondition
  /-- `ValueError` raised by tuple unpacking when a split yields a number
  of parts other than two (main.py lines 23 and 101). -/
  | unpackError
  /-- `KeyError` from `row[column]` on a missing column. -/
  | keyError
  /-- `TypeError` from ordering a `str` against a `float`. -/
  | typeError
  /-- `ValueError("Unsupported aggregate function: ...")`, main.py line 56. -/
  | unsupportedAggregate
  /-- `ValueError` from `min()`/`max()` of an empty sequence. -/
  | emptySeqError
  deriving DecidableEq, Repr

/-- The operator scan of `filter_data` (main.py lines 21-27): the `for`
loop over the `ops` dict tries `>`, then `<`, then `=`, and keeps the
first token contained in the condition string. -/
def findOp (condition : String) : Option Op :=
  if pyContains condition '>' then some .gt
  else if pyContains condition '<' then some .lt
  else if pyContains condition '=' then some .eq
  else none

/-- The condition-parsing phase of `filter_data` (main.py lines 21-29):
find the operator, split the condition on every occurrence of its token,
unpack exactly two parts, and strip both. -/
def parseCondition (condition : String) : Except PyError (String × Op × String) :=
  match findOp condition with
  | none => .error .invalidCondition
  | some op =>
    match pySplit op.char condition with
    | [c, v] => .ok (pyStrip c, op, pyStrip v)
    | _ => .error .unpackError

/-- Errors of the numeric row scan: a missing key, or a cell for which
`float` fails. -/
inductive NumErr
  | key
  | parse
  deriving DecidableEq, Repr

/-- Numeric comparison `op_func(float(row[column]), value)`. -/
def opEval : Op → ℚ → ℚ → Bool
  | .gt, a, b => decide (b < a)
  | .lt, a, b => decide (a < b)
  | .eq, a, b => decide (a = b)

/-- String comparison `op_func(row[column], value)` with both sides
strings. -/
def opEvalStr : Op → String → String → Bool
  | .gt, a, b => pyStrLt b a
  | .lt, a, b => pyStrLt a b
  | .eq, a, b => a == b

/-- The numeric list comprehension of main.py line 33, evaluated row by
row in order: look the column up (a missing key is a `KeyError`), parse
the cell (a failure is the `ValueError` the surrounding `try` catches),
and keep the row when the comparison holds. -/
def numericPass (column : String) (op : Op) (v : ℚ) : List Row → Except NumErr (List Row)
  | [] => .ok []
  | row :: rest =>
    match getCell column row with
    | none => .error .key
    | some cell =>
      match parseFloat? cell with
      | none => .error .parse
      | some x =>
        match numericPass column op v rest with
        | .error e => .error e
        | .ok res => .ok (if opEval op x v then row :: res else res)

/-- The string list comprehension of main.py line 35 when the comparison
value is still a string: the only possible failure is a missing key. -/
def stringPass (column : String) (op : Op) (value : String) : List Row → Except Unit (List Row)
  | [] => .ok []
  | row :: rest =>
    match getCell column row with
    | none => .error ()
    | some cell =>
      match stringPass column op value rest with
      | .error e => .error e
      | .ok res => .ok (if opEvalStr op cell value then row :: res else res)

/-- Python equality between a `str` and a `float`: always `False`. -/
def pyEqStrFloat (_cell : String) (_v : ℚ) : Bool :=
  false

/-- The comprehension of main.py line 35 when `value` was already rebound
to a `float`: each cell is compared with `==` against the float, which
never holds. -/
def eqScan (column : String) (v : ℚ) : List Row → Except Unit (List Row)
  | [] => .ok []
  | row :: rest =>
    match getCell column row with
    | none => .error ()
    | some cell =>
      match eqScan column v rest with
      | .error e => .error e
      | .ok res => .ok (if pyEqStrFloat cell v then row :: res else res)

/-- The fallback taken when `float(row[column])` raised inside the `try`
of main.py lines 31-35 after `value` was successfully converted: the
string comprehension re-runs with a `float` right operand.  With `=` the
comparison is a constant `False`; with `>` or `<` the first evaluated
comparison raises a `TypeError` (after the key lookup of the first row). -/
def mixedFallback (column : String) (op : Op) (v : ℚ) (data : List Row) : Except PyError (List Row) :=
  match op with
  | .eq =>
    match eqScan column v data with
    | .ok res => .ok res
    | .error _ => .error .keyError
  | _ =>
    match data with
    | [] => .ok []
    | row :: _ =>
      match getCell column row with
      | none => .error .keyError
      | some _ => .error .typeError

/-- Embeds `filter_data` (main.py lines 14-35).  A `.error` result models
an uncaught exception escaping the function. -/
def filter_data (data : List Row) (condition : String) : Except PyError (List Row) :=
  match parseCondition condition with
  | .error e => .error e
  | .ok (column, op, value) =>
    match parseFloat? value with
    | some v =>
      match numericPass column op v data with
      | .ok res => .ok res
      | .error .key => .error .keyError
      | .error .parse => mixedFallback column op v data
    | none =>
      match stringPass column op value data with
      | .ok res => .ok res
      | .error _ => .error .keyError

/-- The row predicate of the numeric branch: the cell at `column`, parsed
as a number, satisfies the comparison against `v`. -/
def numPred (column : String) (op : Op) (v : ℚ) (row : Row) : Bool :=
  match getCell column row with
  | none => false
  | some cell =>
    match parseFloat? cell with
    | none => false
    | some x => opEval op x v

/-! ## Aggregator (main.py lines 45-60) -/

/-- Errors of the reducer functions. -/
inductive AggErr
  /-- Unknown reducer name (main.py line 56). -/
  | unsupported
  /-- `ValueError` from `min()`/`max()` of an empty sequence. -/
  | emptySeq
  deriving DecidableEq, Repr

/-- Python binary `min` step: keeps the current value on ties. -/
def min2 (a b : ℚ) : ℚ :=
  if b < a then b else a

/-- Python binary `max` step: keeps the current value on ties. -/
def max2 (a b : ℚ) : ℚ :=
  if a < b then b else a

/-- Python `min(values)`: least element, `ValueError` when empty. -/
def pyMin : List ℚ → Except AggErr ℚ
  | [] => .error .emptySeq
  | h :: t => .ok (t.foldl min2 h)

/-- Python `max(values)`: greatest element, `ValueError` when empty. -/
def pyMax : List ℚ → Except AggErr ℚ
  | [] => .error .emptySeq
  | h :: t => .ok (t.foldl max2 h)

/-- The reducer registry `self.functions` of `Aggregator.__init__`
(main.py lines 47-52), as an ordered association list; insertion order
`avg`, `min`, `max` models the dict iteration order.  The spec names the
same three reducers average, minimum and maximum. -/
def Aggregator.functions : List (String × (List ℚ → Except AggErr ℚ)) :=
  [("avg", fun x => .ok (if x = [] then 0 else x.sum / (x.length : ℚ))),
   ("min", pyMin),
   ("max", pyMax)]

/-- Registry lookup: `func in self.functions` and `self.functions[func]`. -/
def Aggregator.lookupFn (func : String) : Option (List ℚ → Except AggErr ℚ) :=
  Aggregator.functions.lookup func

/-- Embeds `Aggregator.apply` (main.py lines 54-57): the single-reducer
entry point the spec calls `applyOne`. -/
def Aggregator.apply (func : String) (values : List ℚ) : Except AggErr ℚ :=
  match Aggregator.lookupFn func with
  | none => .error .unsupported
  | some f => f values

/-- Rounding of the fraction `n / d` (with `d` positive) to the nearest
integer, ties to even: the rounding Python `format` applies when printing
with `.2f`.  Stated on numerator and denominator so that it evaluates by
machine `Int` arithmetic. -/
def roundPair (n : Int) (d : Nat) : Int :=
  let di : Int := d
  let f := n.fdiv di
  let r := n.fmod di
  if 2 * r < di then f
  else if di < 2 * r then f + 1
  else if f % 2 = 0 then f else f + 1

/-- Modelled host primitive: the Python format string `f"{v:.2f}"` on the
exact rational value — round `q * 100` to the nearest integer (ties to
even) and render a sign, the integer part, a point, and exactly two
fraction digits. -/
def format2 (q : ℚ) : String :=
  let n := roundPair (q.num * 100) q.den
  let a := n.natAbs
  (if n < 0 then "-" else "") ++ toString (a / 100) ++ "." ++
    (if a % 100 < 10 then "0" else "") ++ toString (a % 100)

/-- The comprehension of `Aggregator.all` over the registry entries in
order; an error of a reducer propagates (uncaught in the source). -/
def Aggregator.allAux (values : List ℚ) :
    List (String × (List ℚ → Except AggErr ℚ)) → Except AggErr (List (String × String))
  | [] => .ok []
  | (k, f) :: rest =>
    match f values with
    | .error e => .error e
    | .ok v =>
      match Aggregator.allAux values rest with
      | .error e => .error e
      | .ok t => .ok ((k, format2 v) :: t)

/-- Embeds `Aggregator.all` (main.py lines 59-60): one
(reducer name, value formatted to two decimals) pair per registry entry,
in registry iteration order.  The spec calls this entry point `applyAll`. -/
def Aggregator.all (values : List ℚ) : Except AggErr (List (String × String)) :=
  Aggregator.allAux values Aggregator.functions

/-! ## Column analyzer (main.py lines 64-68) -/

/-- Python `all(try_float(row[key]) is not None for row in data)`:
evaluated lazily row by row, stopping at the first non-numeric cell; a
missing key raises `KeyError` when reached. -/
def allNumeric (key : String) : List Row → Except Unit Bool
  | [] => .ok true
  | row :: rest =>
    match getCell key row with
    | none => .error ()
    | some cell =>
      if (try_float cell).isSome then allNumeric key rest else .ok false

/-- The `for key in data[0].keys()` loop body of `aggregate_all_columns`:
collect the keys whose every cell is numeric, in key order. -/
def collectNumericKeys (data : List Row) : List String → Except Unit (List String)
  | [] => .ok []
  | k :: ks =>
    match allNumeric k data with
    | .error e => .error e
    | .ok b =>
      match collectNumericKeys data ks with
      | .error e => .error e
      | .ok rest => .ok (if b then k :: rest else rest)

/-- Embeds the numeric-column detection of `aggregate_all_columns`
(main.py lines 65-68): the columns of the first row whose every cell
parses as a float, in the key order of the first row.  An empty dataset
models the `IndexError` of `data[0]`. -/
def numeric_columns (data : List Row) : Except Unit (List String) :=
  match data with
  | [] => .error ()
  | first :: _ => collectNumericKeys data (rowKeys first)

/-! ## The aggregate branch of main (main.py lines 97-117) -/

/-- Outcome of the `--aggregate` branch of `main`.  The two `printed`
constructors model the user-visible messages followed by a clean return;
`fatal` models an uncaught exception. -/
inductive AggOutcome
  /-- Printed `"Invalid aggregate argument. Use column=func format."`. -/
  | printedInvalid
  /-- Printed `"Aggregation can only be applied to numeric columns."`. -/
  | printedNonNumeric
  /-- Printed the (func, column, value) table of `Aggregator.all`. -/
  | allTable (t : List (String × String × String))
  /-- Printed the single formatted value of one reducer. -/
  | single (func : String) (value : String)
  /-- An uncaught exception escaped `main`. -/
  | fatal (e : PyError)
  deriving DecidableEq, Repr

/-- Injects a reducer error into the program-level error type. -/
def liftAgg : AggErr → PyError
  | .unsupported => .unsupportedAggregate
  | .emptySeq => .emptySeqError

/-- The comprehension `[float(row[column]) for row in data]` of main.py
line 106, row by row in order: a missing key raises `KeyError`, an
unparseable cell raises the `ValueError` the surrounding `try` catches. -/
def collectFloats (column : String) : List Row → Except NumErr (List ℚ)
  | [] => .ok []
  | row :: rest =>
    match getCell column row with
    | none => .error .key
    | some cell =>
      match parseFloat? cell with
      | none => .error .parse
      | some v =>
        match collectFloats column rest with
        | .error e => .error e
        | .ok vs => .ok (v :: vs)

/-- Embeds the `--aggregate` branch of `main` (main.py lines 97-117):
the `=` format check, the split and strip of `column=func`, the guarded
float collection (only `ValueError` is caught), and the dispatch to
`Aggregator.all` or `Aggregator.apply`. -/
def aggregateStep (data : List Row) (agg : String) : AggOutcome :=
  if pyContains agg '=' = false then .printedInvalid
  else
    match pySplit '=' agg with
    | [c, f] =>
      let column := pyStrip c
      let func := pyStrip f
      match collectFloats column data with
      | .error .key => .fatal .keyError
      | .error .parse => .printedNonNumeric
      | .ok values =>
        if func = "all" then
          match Aggregator.all values with
          | .error e => .fatal (liftAgg e)
          | .ok t => .allTable (t.map (fun p => (p.1, column, p.2)))
        else
          match Aggregator.apply func values with
          | .error e => .fatal (liftAgg e)
          | .ok r => .single func (format2 r)
    | _ => .fatal .unpackError

/-! ## Helper lemmas -/

theorem splitC_ne_nil (sep : Char) (l : List Char) : splitC sep l ≠ [] := by
  cases l with
  | nil => simp [splitC]
  | cons c cs =>
    rcases h : splitC sep cs with _ | ⟨p, ps⟩
    · exact absurd h (splitC_ne_nil sep cs)
    · by_cases hc : c = sep <;> simp [splitC, h, hc]

theorem splitC_length (sep : Char) :
    ∀ l : List Char, (splitC sep l).length = l.count sep + 1 := by
  intro l
  induction l with
  | nil => simp [splitC]
  | cons c cs ih =>
    rcases h : splitC sep cs with _ | ⟨p, ps⟩
    · exact absurd h (splitC_ne_nil sep cs)
    · rw [h] at ih
      by_cases hc : c = sep
    
      · subst hc
        rw [List.count_cons_self]
        simp [splitC, h] at ih ⊢
        omega
      · have hcs : ¬ sep = c := fun hh => hc hh.symm
        rw [List.count_cons_of_ne hcs]
        simp [splitC, h, hc] at ih ⊢
        omega

theorem splitC_not_mem (sep : Char) :
    ∀ l : List Char, sep ∉ l → splitC sep l = [l] := by
  intro l
  induction l with
  | nil => intro _; rfl
  | cons c cs ih =>
    intro hmem
    have hc : ¬ c = sep := fun h => hmem (h ▸ List.mem_cons_self c cs)
    have hcs : sep ∉ cs := fun h => hmem (List.mem_cons_of_mem c h)
    simp [splitC, ih hcs, hc]

theorem splitC_append (sep : Char) :
    ∀ la lb : List Char, sep ∉ la →
      splitC sep (la ++ sep :: lb) = la :: splitC sep lb := by
  intro la
  induction la with
  | nil =>
    intro lb _
    rcases h : splitC sep lb with _ | ⟨p, ps⟩
    · exact absurd h (splitC_ne_nil sep lb)
    · simp [splitC, h]
  | cons c la ih =>
    intro lb hmem
    have hc : ¬ c = sep := fun h => hmem (h ▸ List.mem_cons_self c la)
    have hla : sep ∉ la := fun h => hmem (List.mem_cons_of_mem c h)
    have hrec := ih lb hla
    rcases h : splitC sep (la ++ sep :: lb) with _ | ⟨p, ps⟩
    · exact absurd h (splitC_ne_nil sep _)
    · rw [h] at hrec
      simp [splitC, h, hc, hrec]

theorem pyContains_iff (s : String) (c : Char) :
    pyContains s c = true ↔ c ∈ s.data := by
  unfold pyContains
  rw [List.any_eq_true]
  constructor
  · rintro ⟨d, hd, he⟩
    simp only [decide_eq_true_eq] at he
    exact he ▸ hd
  · intro h
    exact ⟨c, h, by simp⟩

theorem pyContains_of_count (s : String) (c : Char) (h : 0 < s.data.count c) :
    pyContains s c = true :=
  (pyContains_iff s c).mpr (List.count_pos_iff.mp h)

theorem pySplit_pair_contains (sep : Char) (s : String) (a b : String)
    (h : pySplit sep s = [a, b]) : pyContains s sep = true := by
  apply pyContains_of_count
  have hl : (splitC sep s.data).length = 2 := by
    have h2 : (pySplit sep s).length = 2 := by rw [h]; rfl
    simpa [pySplit] using h2
  have := splitC_length sep s.data
  omega

theorem numericPass_ok (column : String) (op : Op) (v : ℚ) :
    ∀ data : List Row,
      (∀ row ∈ data, ((getCell column row).bind parseFloat?).isSome = true) →
      numericPass column op v data = .ok (data.filter (numPred column op v)) := by
  intro data
  induction data with
  | nil => intro _; rfl
  | cons row rest ih =>
    intro h
    have hrow := h row (List.mem_cons_self row rest)
    rcases hc : getCell column row with _ | cell
    · simp [hc] at hrow
    · rcases hp : parseFloat? cell with _ | x
      · simp [hc, hp] at hrow
      · have ihr := ih (fun r hr => h r (List.mem_cons_of_mem row hr))
        have hpred : numPred column op v row = opEval op x v := by
          simp [numPred, hc, hp]
        simp [numericPass, hc, hp, ihr, List.filter_cons, hpred]

theorem numericPass_parseFail (column : String) (op : Op) (v : ℚ) :
    ∀ data : List Row,
      (∀ row ∈ data, (getCell column row).isSome = true) →
      (∃ row ∈ data, (getCell column row).bind parseFloat? = none) →
      numericPass column op v data = .error .parse := by
  intro data
  induction data with
  | nil => rintro _ ⟨r, hr, _⟩; exact absurd hr (List.not_mem_nil r)
  | cons row rest ih =>
    rintro hkeys ⟨r, hr, hbad⟩
    have hrow := hkeys row (List.mem_cons_self row rest)
    rcases hc : getCell column row with _ | cell
    · simp [hc] at hrow
    · rcases hp : parseFloat? cell with _ | x
      · simp only [numericPass, hc, hp]
      · have hrtail : r ∈ rest := by
          rcases List.mem_cons.mp hr with heq | htail
          · subst heq
            simp [hc, hp] at hbad
          · exact htail
        have ihr := ih (fun q hq => hkeys q (List.mem_cons_of_mem row hq))
          ⟨r, hrtail, hbad⟩
        simp only [numericPass, hc, hp, ihr]

theorem eqScan_ok (column : String) (v : ℚ) :
    ∀ data : List Row,
      (∀ row ∈ data, (getCell column row).isSome = true) →
      eqScan column v data = .ok [] := by
  intro data
  induction data with
  | nil => intro _; rfl
  | cons row rest ih =>
    intro h
    have hrow := h row (List.mem_cons_self row rest)
    rcases hc : getCell column row with _ | cell
    · simp [hc] at hrow
    · have ihr := ih (fun r hr => h r (List.mem_cons_of_mem row hr))
      simp [eqScan, hc, ihr, pyEqStrFloat]

theorem collectFloats_parseFail (column : String) :
    ∀ data : List Row,
      (∀ row ∈ data, (getCell column row).isSome = true) →
      (∃ row ∈ data, (getCell column row).bind parseFloat? = none) →
      collectFloats column data = .error .parse := by
  intro data
  induction data with
  | nil => rintro _ ⟨r, hr, _⟩; exact absurd hr (List.not_mem_nil r)
  | cons row rest ih =>
    rintro hkeys ⟨r, hr, hbad⟩
    have hrow := hkeys row (List.mem_cons_self row rest)
    rcases hc : getCell column row with _ | cell
    · simp [hc] at hrow
    · rcases hp : parseFloat? cell with _ | x
      · simp only [collectFloats, hc, hp]
      · have hrtail : r ∈ rest := by
          rcases List.mem_cons.mp hr with heq | htail
          · subst heq
            simp [hc, hp] at hbad
          · exact htail
        have ihr := ih (fun q hq => hkeys q (List.mem_cons_of_mem row hq))
          ⟨r, hrtail, hbad⟩
        simp only [collectFloats, hc, hp, ihr]

theorem allNumeric_ok (key : String) :
    ∀ data : List Row,
      (∀ row ∈ data, (getCell key row).isSome = true) →
      allNumeric key data =
        .ok (data.all (fun row => ((getCell key row).bind parseFloat?).isSome)) := by
  intro data
  induction data with
  | nil => intro _; rfl
  | cons row rest ih =>
    intro h
    have hrow := h row (List.mem_cons_self row rest)
    rcases hc : getCell key row with _ | cell
    · simp [hc] at hrow
    · have ihr := ih (fun r hr => h r (List.mem_cons_of_mem row hr))
      cases ht : (parseFloat? cell).isSome
      · simp [allNumeric, try_float, hc, ht, List.all_cons]
      · simp [allNumeric, try_float, hc, ht, ihr, List.all_cons]

theorem collectNumericKeys_ok (data : List Row) :
    ∀ ks : List String,
      (∀ k ∈ ks, ∀ row ∈ data, (getCell k row).isSome = true) →
      collectNumericKeys data ks =
        .ok (ks.filter
          (fun k => data.all (fun row => ((getCell k row).bind parseFloat?).isSome))) := by
  intro ks
  induction ks with
  | nil => intro _; rfl
  | cons k ks ih =>
    intro h
    have hk := h k (List.mem_cons_self k ks)
    have han := allNumeric_ok k data hk
    have ihr := ih (fun q hq => h q (List.mem_cons_of_mem k hq))
    simp only [collectNumericKeys, han, ihr, List.filter_cons]

theorem mixedFallback_ne_invalid (column : String) (op : Op) (v : ℚ) (data : List Row) :
    mixedFallback column op v data ≠ .error .invalidCondition := by
  cases op with
  | eq =>
    rcases h : eqScan column v data with e | res
    · simp [mixedFallback, h]
    · simp [mixedFallback, h]
  | gt =>
    rcases data with _ | ⟨row, rest⟩
    · simp [mixedFallback]
    · rcases h : getCell column row with _ | cell
      · simp [mixedFallback, h]
      · simp [mixedFallback, h]
  | lt =>
    rcases data with _ | ⟨row, rest⟩
    · simp [mixedFallback]
    · rcases h : getCell column row with _ | cell
      · simp [mixedFallback, h]
      · simp [mixedFallback, h]

theorem filter_data_ne_invalid (data : List Row) (cond : String) (op : Op)
    (hop : findOp cond = some op) :
    filter_data data cond ≠ .error .invalidCondition := by
  unfold filter_data parseCondition
  rw [hop]
  rcases hs : pySplit op.char cond with _ | ⟨c, _ | ⟨v, _ | ⟨w, t⟩⟩⟩
  · simp [hs]
  · simp [hs]
  · rcases hv : parseFloat? (pyStrip v) with _ | q
    · rcases hsp : stringPass (pyStrip c) op (pyStrip v) data with e | res
      · simp [hs, hv, hsp]
      · simp [hs, hv, hsp]
    · rcases hn : numericPass (pyStrip c) op q data with e | res
      · cases e with
        | key => simp [hs, hv, hn]
        | parse =>
          simp only [hs, hv, hn]
          exact mixedFallback_ne_invalid (pyStrip c) op q data
      · simp [hs, hv, hn]
  · simp [hs]

theorem aggregateStep_of_contains_ne_invalid (data : List Row) (agg : String)
    (hcont : pyContains agg '=' = true) :
    aggregateStep data agg ≠ .printedInvalid := by
  unfold aggregateStep
  rw [hcont]
  rcases hs : pySplit '=' agg with _ | ⟨c, _ | ⟨f, _ | ⟨w, t⟩⟩⟩
  · simp [hs]
  · simp [hs]
  · rcases hcf : collectFloats (pyStrip c) data with e | values
    · cases e <;> simp [hs, hcf]
    · by_cases hf : pyStrip f = "all"
      · rcases hall : Aggregator.all values with e | tab <;> simp [hs, hcf, hf, hall]
      · rcases happ : Aggregator.apply (pyStrip f) values with e | r <;>
          simp [hs, hcf, hf, happ]
  · simp [hs]

/-! ## Claim theorems -/

/-- C1, counterexample.  The claim says: whenever the comparison value
parses as a float and some cell in the column does not, `filter_data`
aborts with the propagated parse failure and never returns a result list.
At the dataset `[{a: "x"}]` with condition `a=1` the parse failure on `"x"`
is caught and `filter_data` returns the empty list, refuting the claim. -/
theorem claim_C1_counterexample :
    filter_data [[("a", "x")]] "a=1" = .ok [] := rfl

/-- C1, amended.  When the comparison value parses as a float, every row
has the column, and at least one cell does not parse, the host parse
failure is caught by the same handler that serves non-numeric comparison
values, and the raw string cells are compared against the already
converted float: with operator `=` the invocation returns the empty list,
and with `>` or `<` it aborts with a type error, not with the propagated
parse failure. -/
theorem claim_C1 (data : List Row) (cond column value : String) (op : Op) (v : ℚ)
    (hp : parseCondition cond = .ok (column, op, value))
    (hv : parseFloat? value = some v)
    (hkeys : ∀ row ∈ data, (getCell column row).isSome = true)
    (hbad : ∃ row ∈ data, (getCell column row).bind parseFloat? = none) :
    (op = .eq → filter_data data cond = .ok []) ∧
    (op ≠ .eq → filter_data data cond = .error .typeError) := by
  constructor
  · intro he
    subst he
    simp only [filter_data, hp, hv,
      numericPass_parseFail column .eq v data hkeys hbad,
      mixedFallback, eqScan_ok column v data hkeys]
  · intro hne
    have hnum := numericPass_parseFail column op v data hkeys hbad
    obtain ⟨r, hr, hbadr⟩ := hbad
    rcases data with _ | ⟨row, rest⟩
    · exact absurd hr (List.not_mem_nil r)
    · have hrow := hkeys row (List.mem_cons_self row rest)
      rcases hc : getCell column row with _ | cell
      · simp [hc] at hrow
      · cases op with
        | eq => exact absurd rfl hne
        | gt => simp only [filter_data, hp, hv, hnum, mixedFallback, hc]
        | lt => simp only [filter_data, hp, hv, hnum, mixedFallback, hc]

/-- C1, witness for the amended theorem at concrete inputs. -/
theorem claim_C1_witness :
    filter_data [[("a", "x")]] "a=2" = .ok [] ∧
    filter_data [[("a", "x")]] "a>2" = .error .typeError := by
  constructor
  · exact (claim_C1 [[("a", "x")]] "a=2" "a" "2" .eq 2 rfl rfl
      (by decide) (by decide)).1 rfl
  · exact (claim_C1 [[("a", "x")]] "a>2" "a" "2" .gt 2 rfl rfl
      (by decide) (by decide)).2 (by decide)

/-- C2: when the condition parses, its comparison value parses as a
number, and every cell of the column parses as a number, `filter_data`
returns exactly the subsequence of input rows whose cell satisfies the
numeric comparison, in the original order; the rows of the output are the
input rows themselves (a `List.filter` of the input, so nothing is
mutated). -/
theorem claim_C2 (data : List Row) (cond column value : String) (op : Op) (v : ℚ)
    (hp : parseCondition cond = .ok (column, op, value))
    (hv : parseFloat? value = some v)
    (hall : ∀ row ∈ data, ((getCell column row).bind parseFloat?).isSome = true) :
    filter_data data cond = .ok (data.filter (numPred column op v)) := by
  simp only [filter_data, hp, hv, numericPass_ok column op v data hall]

/-- C2, witness at a concrete dataset and condition. -/
theorem claim_C2_witness :
    filter_data [[("age", "30"), ("name", "Alice")], [("age", "25"), ("name", "Bob")]]
      "age>26" = .ok [[("age", "30"), ("name", "Alice")]] := by
  have h := claim_C2
    [[("age", "30"), ("name", "Alice")], [("age", "25"), ("name", "Bob")]]
    "age>26" "age" "26" .gt 26 rfl rfl (by decide)
  rw [h]
  rfl

/-- C3, counterexample.  The claim says a condition in which the chosen
operator occurs more than once still yields one (column, operator, value)
triple split at the first occurrence, so `a>b>c` would parse to
`(a, >, b>c)`.  The source splits on every occurrence and the two-part
unpacking raises an uncaught error instead. -/
theorem claim_C3_counterexample :
    parseCondition "a>b>c" = .error .unpackError := rfl

/-- C3, amended.  The parser selects the first operator that matches in
the priority order `>`, `<`, `=`, and splits on every occurrence of that
operator: when the operator occurs exactly once the two parts are trimmed
to give the (column, operator, value) triple, and when it occurs more than
once the two-part unpacking raises an uncaught error and no triple is
produced. -/
theorem claim_C3 :
    (∀ (a b : String) (op : Op),
        findOp (a ++ op.tok ++ b) = some op →
        op.char ∉ a.data → op.char ∉ b.data →
        parseCondition (a ++ op.tok ++ b) = .ok (pyStrip a, op, pyStrip b)) ∧
    (∀ (cond : String) (op : Op),
        findOp cond = some op →
        2 ≤ cond.data.count op.char →
        parseCondition cond = .error .unpackError) := by
  constructor
  · intro a b op hop ha hb
    obtain ⟨la⟩ := a
    obtain ⟨lb⟩ := b
    have hdata : (String.mk la ++ op.tok ++ String.mk lb).data = la ++ op.char :: lb := by
      simp [Op.tok, String.data_append]
    have hsplit : pySplit op.char (String.mk la ++ op.tok ++ String.mk lb) =
        [String.mk la, String.mk lb] := by
      unfold pySplit
      rw [hdata, splitC_append op.char la lb ha, splitC_not_mem op.char lb hb]
      rfl
    simp only [parseCondition, hop, hsplit]
  · intro cond op hop hcount
    have h3 : 3 ≤ (pySplit op.char cond).length := by
      unfold pySplit
      rw [List.length_map]
      have := splitC_length op.char cond.data
      omega
    rcases hs : pySplit op.char cond with _ | ⟨c, _ | ⟨v, _ | ⟨w, t⟩⟩⟩
    · rw [hs] at h3; simp at h3
    · rw [hs] at h3; simp at h3
    · rw [hs] at h3; simp at h3
    · simp only [parseCondition, hop, hs]

/-- C3, witness for the amended theorem: a single-occurrence condition
parses to a triple, and a double-occurrence condition raises the
unpacking error. -/
theorem claim_C3_witness :
    parseCondition "age>30" = .ok ("age", Op.gt, "30") ∧
    parseCondition "x=1=2" = .error .unpackError := by
  constructor
  · exact claim_C3.1 "age" "30" .gt rfl (by decide) (by decide)
  · exact claim_C3.2 "x=1=2" .eq rfl (by decide)

/-- C4: `filter_data` fails with the invalid-condition error exactly when
none of the three operator tokens occurs in the condition string; the
error result means no filtering is performed and the run halts with the
uncaught error. -/
theorem claim_C4 (data : List Row) (cond : String) :
    filter_data data cond = .error .invalidCondition ↔
      (pyContains cond '>' = false ∧ pyContains cond '<' = false ∧
        pyContains cond '=' = false) := by
  constructor
  · intro h
    rcases hop : findOp cond with _ | op
    · unfold findOp at hop
      cases h1 : pyContains cond '>' <;> simp [h1] at hop
      cases h2 : pyContains cond '<' <;> simp [h2] at hop
      cases h3 : pyContains cond '=' <;> simp [h3] at hop
      exact ⟨rfl, rfl, rfl⟩
    · exact absurd h (filter_data_ne_invalid data cond op hop)
  · rintro ⟨h1, h2, h3⟩
    have hop : findOp cond = none := by
      unfold findOp
      simp [h1, h2, h3]
    simp [filter_data, parseCondition, hop]

/-- C4, witness at a concrete condition with no operator token. -/
theorem claim_C4_witness :
    filter_data [] "abc" = .error .invalidCondition :=
  (claim_C4 [] "abc").mpr (by decide)

/-- C5, counterexample.  The claim says a missing column on the
`--aggregate` path is caught and turned into a user-visible message.  In
the source only `ValueError` is caught around the float collection, so
the `KeyError` for the absent column `col` escapes uncaught. -/
theorem claim_C5_counterexample :
    aggregateStep [[("a", "1")]] "b=avg" = .fatal .keyError := rfl

/-- C5, amended.  On the `--aggregate` path only the numeric-coercion
failure is caught and converted to the user-visible message; an aggregate
referencing a column absent from a row raises an uncaught `KeyError` that
propagates as a fatal error, just as on the filtering path. -/
theorem claim_C5 (data : List Row) (agg c f : String)
    (hsplit : pySplit '=' agg = [c, f]) :
    (∀ (r : Row) (rest : List Row), data = r :: rest →
        getCell (pyStrip c) r = none →
        aggregateStep data agg = .fatal .keyError) ∧
    ((∀ row ∈ data, (getCell (pyStrip c) row).isSome = true) →
      (∃ row ∈ data, (getCell (pyStrip c) row).bind parseFloat? = none) →
        aggregateStep data agg = .printedNonNumeric) := by
  have hcont : pyContains agg '=' = true := pySplit_pair_contains '=' agg c f hsplit
  constructor
  · rintro r rest rfl hnone
    have hcf : collectFloats (pyStrip c) (r :: rest) = .error .key := by
      simp only [collectFloats, hnone]
    simp [aggregateStep, hcont, hsplit, hcf]
  · rintro hkeys hbad
    have hcf := collectFloats_parseFail (pyStrip c) data hkeys hbad
    simp [aggregateStep, hcont, hsplit, hcf]

/-- C5, witness for the amended theorem at concrete inputs. -/
theorem claim_C5_witness :
    aggregateStep [[("x", "5")]] "col=avg" = .fatal .keyError ∧
    aggregateStep [[("a", "zz")]] "a=min" = .printedNonNumeric := by
  constructor
  · exact (claim_C5 [[("x", "5")]] "col=avg" "col" "avg" rfl).1
      [("x", "5")] [] rfl rfl
  · exact (claim_C5 [[("a", "zz")]] "a=min" "a" "min" rfl).2
      (by decide) (by decide)

/-- C6: on a non-empty dataset whose rows all carry the keys of the first
row, the column analyzer returns exactly the keys of the first row whose
every cell parses as a float, as a `List.filter` of the first row's keys,
hence in first-row key order; a column with any unparseable cell
(including the empty string, which `parseFloat?` rejects) is excluded. -/
theorem claim_C6 (first : Row) (rest : List Row)
    (h : ∀ k ∈ rowKeys first, ∀ row ∈ first :: rest, (getCell k row).isSome = true) :
    numeric_columns (first :: rest) =
      .ok ((rowKeys first).filter
        (fun k => (first :: rest).all
          (fun row => ((getCell k row).bind parseFloat?).isSome))) := by
  unfold numeric_columns
  exact collectNumericKeys_ok (first :: rest) (rowKeys first) h

/-- C6, witness: column `a` has cells `1` and `2.5` and is kept; column
`b` has an empty cell and is excluded. -/
theorem claim_C6_witness :
    numeric_columns [[("a", "1"), ("b", "")], [("a", "2.5"), ("b", "3")]] = .ok ["a"] := by
  have h := claim_C6 [("a", "1"), ("b", "")] [[("a", "2.5"), ("b", "3")]] (by decide)
  rw [h]
  rfl

/-- C7: through the single-reducer entry point `Aggregator.apply`, the
reducer the spec calls average (registry key `avg`) returns 0 on the
empty sequence thanks to the explicit guard, while the reducer the spec
calls minimum (registry key `min`) faults on the empty sequence — the
host error propagates instead of a sentinel being returned. -/
theorem claim_C7 :
    Aggregator.apply "avg" ([] : List ℚ) = .ok 0 ∧
    Aggregator.apply "min" ([] : List ℚ) = .error .emptySeq :=
  ⟨rfl, rfl⟩

/-- C8: `Aggregator.all` on `[1, 2, 3]` yields one pair per registered
reducer, in registry iteration order (`avg`, `min`, `max` — the reducers
the spec names average, minimum, maximum), each value formatted to
exactly two decimals: `2.00`, `1.00`, `3.00`. -/
theorem claim_C8 :
    Aggregator.all [1, 2, 3] = .ok [("avg", "2.00"), ("min", "1.00"), ("max", "3.00")] := by
  have e1 : (if ([1, 2, 3] : List ℚ) = [] then (0 : ℚ)
      else ([1, 2, 3] : List ℚ).sum / (([1, 2, 3] : List ℚ).length : ℚ)) = 2 := by
    rw [if_neg (by decide : ¬([1, 2, 3] : List ℚ) = [])]
    norm_num
  have e2 : pyMin [1, 2, 3] = .ok 1 := rfl
  have e3 : pyMax [1, 2, 3] = .ok 3 := rfl
  simp only [Aggregator.all, Aggregator.allAux, Aggregator.functions, e1, e2, e3]
  rfl

/-- C9: with an `=` condition whose value parses as a float, a column
present in every row, and at least one unparseable cell, `filter_data`
raises no error and returns the empty list: the coercion failure is
caught by the handler for non-numeric comparison values, and the string
cells are compared for equality against the converted float, which holds
for no row. -/
theorem claim_C9 (data : List Row) (cond column value : String) (v : ℚ)
    (hp : parseCondition cond = .ok (column, .eq, value))
    (hv : parseFloat? value = some v)
    (hkeys : ∀ row ∈ data, (getCell column row).isSome = true)
    (hbad : ∃ row ∈ data, (getCell column row).bind parseFloat? = none) :
    filter_data data cond = .ok [] := by
  simp only [filter_data, hp, hv,
    numericPass_parseFail column .eq v data hkeys hbad,
    mixedFallback, eqScan_ok column v data hkeys]

/-- C9, witness at a concrete dataset and condition. -/
theorem claim_C9_witness :
    filter_data [[("b", "zz")]] "b=2" = .ok [] :=
  claim_C9 [[("b", "zz")]] "b=2" "b" "2" 2 rfl rfl (by decide) (by decide)

/-- C10: an `--aggregate` value containing two or more `=` characters
passes the format check but makes the two-part unpacking raise an
uncaught error, and the clean malformed-aggregate message is printed
exactly when the value contains no `=` at all. -/
theorem claim_C10 (data : List Row) (agg : String) :
    (2 ≤ agg.data.count '=' → aggregateStep data agg = .fatal .unpackError) ∧
    (aggregateStep data agg = .printedInvalid ↔ agg.data.count '=' = 0) := by
  constructor
  · intro hcount
    have hcont : pyContains agg '=' = true :=
      pyContains_of_count agg '=' (by omega)
    have h3 : 3 ≤ (pySplit '=' agg).length := by
      unfold pySplit
      rw [List.length_map]
      have := splitC_length '=' agg.data
      omega
    rcases hs : pySplit '=' agg with _ | ⟨c, _ | ⟨f, _ | ⟨w, t⟩⟩⟩
    · rw [hs] at h3; simp at h3
    · rw [hs] at h3; simp at h3
    · rw [hs] at h3; simp at h3
    · simp [aggregateStep, hcont, hs]
  · constructor
    · intro h
      by_contra hne
      have hcont : pyContains agg '=' = true :=
        pyContains_of_count agg '=' (Nat.pos_of_ne_zero hne)
      exact aggregateStep_of_contains_ne_invalid data agg hcont h
    · intro h0
      have hnm : ('=' : Char) ∉ agg.data := List.count_eq_zero.mp h0
      have hcont : pyContains agg '=' = false := by
        cases hb : pyContains agg '='
        · rfl
        · exact absurd ((pyContains_iff agg '=').mp hb) hnm
      simp [aggregateStep, hcont]

/-- C10, witness at concrete aggregate argument values. -/
theorem claim_C10_witness :
    aggregateStep [] "age=avg=max" = .fatal .unpackError ∧
    aggregateStep [] "agesum" = .printedInvalid :=
  ⟨(claim_C10 [] "age=avg=max").1 (by decide),
   (claim_C10 [] "agesum").2.mpr (by decide)⟩
